import Mathlib

/-
  Verification development for the rvr color-sensor controller
  (src/color_sensor.test.js).

  The JavaScript source is shallowly embedded here:
  * JS numbers on the arithmetic paths of this program are exact on the
    inputs involved (integers, and quotients of small integers), so color
    channels are modelled as rationals (`ℚ`);
  * `Math.round` is `jround` (floor of x + 1/2, which is how JS rounds
    halves, also for negative arguments);
  * the one irrational operation, `Math.sqrt` inside `standardDeviation`,
    is modelled with `Real.sqrt`; the stability test `stdev < 3.0` is
    embedded as the equivalent rational test `variance < 9` and the
    equivalence is proved (`areStable_iff_stdev`);
  * the mutable module state (rolling windows, stable color, the
    spec-to-handlers Map, scan accumulator) becomes explicit state records
    threaded through the functions that mutate them;
  * JS `Map` is an association list in insertion order, keyed by a `Nat`
    identity standing for the object identity of a spec;
  * a registered handler callback is modelled by a `HandlerRec` carrying
    `callsDone` (does the callback invoke its completion token before the
    next sample?), the `isRunning` flag from the source, and `count`, an
    instrumentation field counting how many times the callback has been
    invoked (the pure stand-in for the side effect of calling
    `handler.fn`);
  * timers (`setTimeout` loops) are external: a run of the sampling or
    scanning loop is a fold of the tick function over the list of colors
    the ticks observe.
-/

namespace ColorSensor

/-- Color is a three-channel r/g/b value, as produced by the sensor. -/
@[ext]
structure Color where
  r : ℚ
  g : ℚ
  b : ℚ
deriving DecidableEq

/-- ToleranceChannel is one channel of a color spec: {value, tolerance}. -/
@[ext]
structure ToleranceChannel where
  value : ℚ
  tolerance : ℚ
deriving DecidableEq

/-- ColorSpec is a per-channel value+tolerance region (source: the object
passed to `newSpec`). -/
@[ext]
structure ColorSpec where
  r : ToleranceChannel
  g : ToleranceChannel
  b : ToleranceChannel
deriving DecidableEq

/-- RealColor is a three-channel value with real channels, the codomain of
`standardDeviation` (whose channels involve `Math.sqrt`). -/
@[ext]
structure RealColor where
  r : ℝ
  g : ℝ
  b : ℝ

/-- Source `average(colors)`: accumulate per-channel sums in a loop, then
divide each channel by `colors.length`. -/
def average (colors : List Color) : Color :=
  let acc := colors.foldl
    (fun avg c => ⟨avg.r + c.r, avg.g + c.g, avg.b + c.b⟩)
    (⟨0, 0, 0⟩ : Color)
  ⟨acc.r / (colors.length : ℚ), acc.g / (colors.length : ℚ),
    acc.b / (colors.length : ℚ)⟩

/-- Source `standardDeviation(colors)`, accumulation part: the per-channel
sum of squared differences from the average. -/
def sumOfDiffsSquared (colors : List Color) : Color :=
  let avg := average colors
  colors.foldl
    (fun acc c =>
      ⟨acc.r + (avg.r - c.r) * (avg.r - c.r),
       acc.g + (avg.g - c.g) * (avg.g - c.g),
       acc.b + (avg.b - c.b) * (avg.b - c.b)⟩)
    (⟨0, 0, 0⟩ : Color)

/-- Source `standardDeviation(colors)`: per channel,
`Math.sqrt(sumOfDiffsSquared.c / colors.length)`. -/
noncomputable def standardDeviation (colors : List Color) : RealColor :=
  let s := sumOfDiffsSquared colors
  ⟨Real.sqrt ((s.r : ℝ) / (colors.length : ℝ)),
   Real.sqrt ((s.g : ℝ) / (colors.length : ℝ)),
   Real.sqrt ((s.b : ℝ) / (colors.length : ℝ))⟩

/-- Source `Math.round`: JS rounds to the nearest integer, rounding halves
toward positive infinity, i.e. floor (x + 1/2). -/
def jround (q : ℚ) : ℤ := ⌊q + 1 / 2⌋

/-- Source `round(color)`: round each channel (source name: `round`). -/
def roundColor (c : Color) : Color :=
  ⟨(jround c.r : ℚ), (jround c.g : ℚ), (jround c.b : ℚ)⟩

/-- Source `isEqual(colorA, colorB)`: channel-wise strict equality. -/
def isEqual (a b : Color) : Bool :=
  decide (a.r = b.r ∧ a.g = b.g ∧ a.b = b.b)

/-- Source `spec.isMatch(color)` with an explicit color argument: every
channel must lie within `value ± tolerance`, both ends inclusive. -/
def isMatch (spec : ColorSpec) (c : Color) : Bool :=
  decide (spec.r.value - spec.r.tolerance ≤ c.r ∧
          c.r ≤ spec.r.value + spec.r.tolerance ∧
          spec.g.value - spec.g.tolerance ≤ c.g ∧
          c.g ≤ spec.g.value + spec.g.tolerance ∧
          spec.b.value - spec.b.tolerance ≤ c.b ∧
          c.b ≤ spec.b.value + spec.b.tolerance)

/-- Source `areStable(colors)`: all three channels of
`standardDeviation(colors)` are below 3.0.  Embedded as the equivalent
rational comparison variance < 9 so that the stabilizer is executable;
`areStable_iff_stdev` below proves the equivalence with the source's
square-root formulation. -/
def areStable (colors : List Color) : Bool :=
  let s := sumOfDiffsSquared colors
  decide (s.r / (colors.length : ℚ) < 9 ∧
          s.g / (colors.length : ℚ) < 9 ∧
          s.b / (colors.length : ℚ) < 9)

/-- HandlerRec is one entry of a spec's handler list: the source's
`{fn: handler, isRunning: false}` record.  `callsDone` says whether the
callback invokes its completion token before the next sample; `count`
counts invocations of the callback (the observable effect of
`handler.fn(...)` in a pure embedding). -/
structure HandlerRec where
  callsDone : Bool
  isRunning : Bool
  count : Nat
deriving DecidableEq

/-- RegEntry is one entry of the `specsToHandlers` Map: a key (the spec's
object identity, as a Nat), the spec, and its ordered handler list. -/
structure RegEntry where
  id : Nat
  spec : ColorSpec
  handlers : List HandlerRec
deriving DecidableEq

/-- Dispatch to a single handler (source: the body of the inner loop of
`invokeHandlersMatching`): if `isRunning` is set, do nothing; otherwise set
`isRunning` and invoke the callback — after which `isRunning` is clear
again exactly when the callback called `done`. -/
def dispatchHandler (h : HandlerRec) : HandlerRec :=
  if h.isRunning then h
  else ⟨h.callsDone, !h.callsDone, h.count + 1⟩

/-- Source `invokeHandlersMatching(color)`: for every registered spec that
matches the color, dispatch to each of its handlers in registration
order. -/
def invokeHandlersMatching (reg : List RegEntry) (color : Color) :
    List RegEntry :=
  reg.map (fun e =>
    if isMatch e.spec color then
      ⟨e.id, e.spec, e.handlers.map dispatchHandler⟩
    else e)

/-- HandlerArg models the argument of `whenMatches`: either a callable
handler (characterized by whether it calls `done` before the next sample)
or any non-callable value. -/
inductive HandlerArg where
  | callable (callsDone : Bool)
  | notCallable
deriving DecidableEq

/-- Map lookup (JS `specsToHandlers.get(spec)`), keyed by spec identity. -/
def regGet (reg : List RegEntry) (i : Nat) : Option (List HandlerRec) :=
  match reg with
  | [] => none
  | e :: rest => if e.id = i then some e.handlers else regGet rest i

/-- Get-or-create-then-push (JS `get(this) || []`, `set`, `push`): append a
handler record to the spec's list, creating the entry at the end of the map
if the key is absent; an existing key keeps its position. -/
def mapSet (reg : List RegEntry) (i : Nat) (spec : ColorSpec)
    (rec : HandlerRec) : List RegEntry :=
  match reg with
  | [] => [⟨i, spec, [rec]⟩]
  | e :: rest =>
      if e.id = i then ⟨e.id, e.spec, e.handlers ++ [rec]⟩ :: rest
      else e :: mapSet rest i spec rec

/-- Source `spec.whenMatches(handler)`: a callable handler is appended as
`{fn, isRunning: false}` to the spec's list (created if absent); any
non-callable argument deletes the spec's entry (JS `Map.delete`; keys are
unique, so removing every entry with this key is the same operation). -/
def whenMatches (reg : List RegEntry) (i : Nat) (spec : ColorSpec)
    (arg : HandlerArg) : List RegEntry :=
  match arg with
  | .callable cd => mapSet reg i spec ⟨cd, false, 0⟩
  | .notCallable => reg.filter (fun e => !(e.id == i))

/-- CtrlState is the controller's mutable module state: configuration,
rolling windows, latest stable color, and the handler registry. -/
structure CtrlState where
  stability : Nat
  rawColors : List Color
  avgColors : List Color
  latestStableColor : Color
  registry : List RegEntry
deriving DecidableEq

/-- Source `collectSample()`, with the freshly sampled color as an explicit
argument: unshift the sample and its running average onto the windows; once
the window is full, on stability round the current average, and, if it
differs from the latest stable color, publish it and dispatch handlers;
finally trim both windows to `stability - 1` entries. -/
def collectSample (sample : Color) (s : CtrlState) : CtrlState :=
  let rawColors := sample :: s.rawColors
  let currAvgColor := average rawColors
  let avgColors := currAvgColor :: s.avgColors
  if s.stability ≤ avgColors.length then
    if areStable avgColors then
      let nextStableColor := roundColor currAvgColor
      if isEqual nextStableColor s.latestStableColor then
        ⟨s.stability, rawColors.take (s.stability - 1),
          avgColors.take (s.stability - 1), s.latestStableColor, s.registry⟩
      else
        ⟨s.stability, rawColors.take (s.stability - 1),
          avgColors.take (s.stability - 1), nextStableColor,
          invokeHandlersMatching s.registry nextStableColor⟩
    else
      ⟨s.stability, rawColors.take (s.stability - 1),
        avgColors.take (s.stability - 1), s.latestStableColor, s.registry⟩
  else
    ⟨s.stability, rawColors, avgColors, s.latestStableColor, s.registry⟩

/-- A run of stable-color publications: each element of `colors` is one
newly published stable color, dispatched through the registry in order. -/
def runPublications (reg : List RegEntry) (colors : List Color) :
    List RegEntry :=
  colors.foldl invokeHandlersMatching reg

/-- ChannelRange is one channel of the scan accumulator: observed
minimum and maximum. -/
@[ext]
structure ChannelRange where
  min : ℚ
  max : ℚ
deriving DecidableEq

/-- ScanState is the state of one scan (source: the locals of the
function returned by `startScan`). -/
@[ext]
structure ScanState where
  enabled : Bool
  count : Nat
  r : ChannelRange
  g : ChannelRange
  b : ChannelRange
deriving DecidableEq

/-- Scan state at `startScan`: enabled, zero count, every channel
initialized to {min: 255, max: 0}. -/
def initScanState : ScanState :=
  ⟨true, 0, ⟨255, 0⟩, ⟨255, 0⟩, ⟨255, 0⟩⟩

/-- Source `scanForColor`, one timer tick, with the observed color as an
explicit argument: while enabled, any color other than the literal
`{0,0,0}` widens each channel's min/max and increments `count`; the
all-zero color is skipped entirely. -/
def scanForColor (c : Color) (s : ScanState) : ScanState :=
  if s.enabled then
    if ¬(c.r = 0 ∧ c.g = 0 ∧ c.b = 0) then
      ⟨s.enabled, s.count + 1,
        ⟨min s.r.min c.r, max s.r.max c.r⟩,
        ⟨min s.g.min c.g, max s.g.max c.g⟩,
        ⟨min s.b.min c.b, max s.b.max c.b⟩⟩
    else s
  else s

/-- Source `stop()`: clear the enabled flag; the loop terminates on its
next tick. -/
def stop (s : ScanState) : ScanState :=
  ⟨false, s.count, s.r, s.g, s.b⟩

/-- Source `getColorSpec()`: per channel, the value is the rounded midpoint
of min/max and the tolerance is the rounded distance from max to the
unrounded midpoint. -/
def getColorSpec (s : ScanState) : ColorSpec :=
  let avg : Color :=
    ⟨(s.r.max + s.r.min) / 2, (s.g.max + s.g.min) / 2, (s.b.max + s.b.min) / 2⟩
  ⟨⟨(jround avg.r : ℚ), (jround (s.r.max - avg.r) : ℚ)⟩,
   ⟨(jround avg.g : ℚ), (jround (s.g.max - avg.g) : ℚ)⟩,
   ⟨(jround avg.b : ℚ), (jround (s.b.max - avg.b) : ℚ)⟩⟩

/-- Source `getCount()`. -/
def getCount (s : ScanState) : Nat := s.count

/-- Running a scan: fold the tick function over the colors the ticks
observe, starting from the freshly started scan state. -/
def runScan (ticks : List Color) : ScanState :=
  ticks.foldl (fun s c => scanForColor c s) initScanState

/-- Concrete sample list used by the statistics witness. -/
def oneColorList : List Color := [⟨5, 6, 7⟩]

/-- Concrete spec used by the matcher witness (from the source's tests). -/
def sampleSpec : ColorSpec := ⟨⟨245, 10⟩, ⟨57, 10⟩, ⟨97, 10⟩⟩

/-- Concrete color used by the matcher witness (at the upper tolerances of
`sampleSpec`). -/
def sampleColor : Color := ⟨255, 67, 107⟩

/-- Concrete scan state with an odd min+max on the red channel, used to
probe the tolerance formula. -/
def oddSpreadScan : ScanState := ⟨true, 1, ⟨1, 6⟩, ⟨0, 0⟩, ⟨0, 0⟩⟩

/-- Channel-wise characterization of the accumulation loops: folding a
per-channel addition over a list starting at `a` adds the per-channel sums
to `a`. -/
theorem foldl_channels (f g h : Color → ℚ) (cs : List Color) (a : Color) :
    cs.foldl (fun acc c => ⟨acc.r + f c, acc.g + g c, acc.b + h c⟩) a
      = ⟨a.r + (cs.map f).sum, a.g + (cs.map g).sum, a.b + (cs.map h).sum⟩ := by
  induction cs generalizing a with
  | nil => simp
  | cons c cs ih =>
      simp only [List.foldl_cons, List.map_cons, List.sum_cons, ih,
        Color.mk.injEq]
      refine ⟨by ring, by ring, by ring⟩

/-- Source `average` computes the per-channel arithmetic mean. -/
theorem average_eq (cs : List Color) :
    average cs =
      ⟨(cs.map Color.r).sum / (cs.length : ℚ),
       (cs.map Color.g).sum / (cs.length : ℚ),
       (cs.map Color.b).sum / (cs.length : ℚ)⟩ := by
  simp [average, foldl_channels]

/-- Source `standardDeviation`'s accumulator is the per-channel sum of
squared deviations from the mean. -/
theorem sumOfDiffsSquared_eq (cs : List Color) :
    sumOfDiffsSquared cs =
      ⟨(cs.map (fun c => ((average cs).r - c.r) * ((average cs).r - c.r))).sum,
       (cs.map (fun c => ((average cs).g - c.g) * ((average cs).g - c.g))).sum,
       (cs.map (fun c => ((average cs).b - c.b) * ((average cs).b - c.b))).sum⟩ := by
  simp [sumOfDiffsSquared, foldl_channels]

/-- The executable stability test (variance below 9) is the source's test
that every channel of `standardDeviation` is below 3.0. -/
theorem areStable_iff_stdev (cs : List Color) :
    areStable cs = true ↔
      ((standardDeviation cs).r < 3 ∧ (standardDeviation cs).g < 3 ∧
        (standardDeviation cs).b < 3) := by
  have h3 : (0 : ℝ) < 3 := by norm_num
  simp only [areStable, standardDeviation, decide_eq_true_eq,
    Real.sqrt_lt' h3]
  norm_num
  constructor <;> intro h <;>
    refine ⟨?_, ?_, ?_⟩ <;> [exact_mod_cast h.1; exact_mod_cast h.2.1;
      exact_mod_cast h.2.2; exact_mod_cast h.1; exact_mod_cast h.2.1;
      exact_mod_cast h.2.2]

/-- Claim C6: for every non-empty list of colors, `average` returns the
per-channel arithmetic mean and `standardDeviation` returns the per-channel
population standard deviation (square root of the sum of squared deviations
from the mean divided by N, not N-1); consequently, for a non-empty list of
identical colors, `average` returns that color and `standardDeviation`
returns zero on every channel. -/
theorem c6_statistics_mean_and_population_stdev (colors : List Color)
    (hne : colors ≠ []) :
    (average colors =
      ⟨(colors.map Color.r).sum / (colors.length : ℚ),
       (colors.map Color.g).sum / (colors.length : ℚ),
       (colors.map Color.b).sum / (colors.length : ℚ)⟩)
    ∧ (standardDeviation colors =
      ⟨Real.sqrt
          (((colors.map (fun c => ((average colors).r - c.r) *
              ((average colors).r - c.r))).sum : ℝ) / (colors.length : ℝ)),
        Real.sqrt
          (((colors.map (fun c => ((average colors).g - c.g) *
              ((average colors).g - c.g))).sum : ℝ) / (colors.length : ℝ)),
        Real.sqrt
          (((colors.map (fun c => ((average colors).b - c.b) *
              ((average colors).b - c.b))).sum : ℝ) / (colors.length : ℝ))⟩)
    ∧ ∀ c : Color, (∀ x ∈ colors, x = c) →
        average colors = c ∧ standardDeviation colors = ⟨0, 0, 0⟩ := by
  have hlen : (colors.length : ℚ) ≠ 0 := by
    simpa [List.length_eq_zero] using hne
  refine ⟨average_eq colors, ?_, ?_⟩
  · simp [standardDeviation, sumOfDiffsSquared_eq]
  · intro c hc
    have hsum : ∀ f : Color → ℚ, (colors.map f).sum = colors.length * f c := by
      intro f
      have := List.sum_eq_card_nsmul (colors.map f) (f c)
        (fun x hx => by
          obtain ⟨y, hy, rfl⟩ := List.mem_map.mp hx
          rw [hc y hy])
      simpa [nsmul_eq_mul] using this
    have havg : average colors = c := by
      rw [average_eq]
      ext <;> simp only [hsum] <;> exact mul_div_cancel_left₀ _ hlen
    have hsq : sumOfDiffsSquared colors = ⟨0, 0, 0⟩ := by
      rw [sumOfDiffsSquared_eq]
      ext <;>
        · apply List.sum_eq_zero
          intro x hx
          obtain ⟨y, hy, rfl⟩ := List.mem_map.mp hx
          rw [havg, hc y hy]
          ring
    refine ⟨havg, ?_⟩
    simp [standardDeviation, hsq]

/-- Claim C6 witness: the theorem applied at the singleton list of the
color (5, 6, 7). -/
theorem c6_statistics_mean_and_population_stdev_witness :
    (oneColorList ≠ [])
    ∧ ((average oneColorList =
        ⟨(oneColorList.map Color.r).sum / (oneColorList.length : ℚ),
         (oneColorList.map Color.g).sum / (oneColorList.length : ℚ),
         (oneColorList.map Color.b).sum / (oneColorList.length : ℚ)⟩)
    ∧ (standardDeviation oneColorList =
      ⟨Real.sqrt
          (((oneColorList.map (fun c => ((average oneColorList).r - c.r) *
              ((average oneColorList).r - c.r))).sum : ℝ) / (oneColorList.length : ℝ)),
        Real.sqrt
          (((oneColorList.map (fun c => ((average oneColorList).g - c.g) *
              ((average oneColorList).g - c.g))).sum : ℝ) / (oneColorList.length : ℝ)),
        Real.sqrt
          (((oneColorList.map (fun c => ((average oneColorList).b - c.b) *
              ((average oneColorList).b - c.b))).sum : ℝ) / (oneColorList.length : ℝ))⟩)
    ∧ ∀ c : Color, (∀ x ∈ oneColorList, x = c) →
        average oneColorList = c ∧ standardDeviation oneColorList = ⟨0, 0, 0⟩) :=
  ⟨by simp [oneColorList],
   c6_statistics_mean_and_population_stdev oneColorList (by simp [oneColorList])⟩

/-- Claim C9 counterexample: `average` applied to the empty list does not
fail: the source performs 0/0 on each channel, which in JavaScript silently
yields NaN (a number, with no exception raised); in this embedding, where
division by zero is total with value 0, the call likewise returns an
ordinary color, the all-zero one.  This refutes the claim that the call
fails fast rather than silently returning a result of dividing by zero. -/
theorem c9_counterexample : average ([] : List Color) = ⟨0, 0, 0⟩ := by
  norm_num [average]

/-- Claim C9 amended: calling `average` or `standardDeviation` on an empty
list of colors does not fail fast; each function totalizes the per-channel
division by zero length (NaN in JavaScript, 0 in this embedding) and
silently returns a value. -/
theorem c9_amended_empty_stats_silent :
    average ([] : List Color) = ⟨0, 0, 0⟩
    ∧ standardDeviation ([] : List Color) = ⟨0, 0, 0⟩ := by
  constructor
  · norm_num [average]
  · simp [standardDeviation, sumOfDiffsSquared]

/-- Claim C5: `isMatch` returns true iff each channel of the color lies in
the inclusive interval value plus-or-minus tolerance; in particular a color
exactly at value plus-or-minus tolerance on every channel matches, and a
color at value plus-or-minus (tolerance + 1) on any channel does not. -/
theorem c5_isMatch_inclusive_intervals (spec : ColorSpec) (c : Color)
    (hr : 0 ≤ spec.r.tolerance) (hg : 0 ≤ spec.g.tolerance)
    (hb : 0 ≤ spec.b.tolerance) :
    (isMatch spec c = true ↔
      (spec.r.value - spec.r.tolerance ≤ c.r ∧
       c.r ≤ spec.r.value + spec.r.tolerance ∧
       spec.g.value - spec.g.tolerance ≤ c.g ∧
       c.g ≤ spec.g.value + spec.g.tolerance ∧
       spec.b.value - spec.b.tolerance ≤ c.b ∧
       c.b ≤ spec.b.value + spec.b.tolerance))
    ∧ isMatch spec ⟨spec.r.value + spec.r.tolerance,
        spec.g.value + spec.g.tolerance, spec.b.value + spec.b.tolerance⟩ = true
    ∧ isMatch spec ⟨spec.r.value - spec.r.tolerance,
        spec.g.value - spec.g.tolerance, spec.b.value - spec.b.tolerance⟩ = true
    ∧ isMatch spec ⟨spec.r.value + (spec.r.tolerance + 1),
        spec.g.value, spec.b.value⟩ = false
    ∧ isMatch spec ⟨spec.r.value, spec.g.value - (spec.g.tolerance + 1),
        spec.b.value⟩ = false
    ∧ isMatch spec ⟨spec.r.value, spec.g.value,
        spec.b.value + (spec.b.tolerance + 1)⟩ = false := by
  refine ⟨by simp [isMatch], ?_, ?_, ?_, ?_, ?_⟩ <;>
    simp only [isMatch, decide_eq_true_eq, decide_eq_false_iff_not]
  · exact ⟨by linarith, by linarith, by linarith, by linarith, by linarith,
      by linarith⟩
  · exact ⟨by linarith, by linarith, by linarith, by linarith, by linarith,
      by linarith⟩
  · rintro ⟨-, h2, -⟩; linarith
  · rintro ⟨-, -, h3, -⟩; linarith
  · rintro ⟨-, -, -, -, -, h6⟩; linarith

/-- Claim C5 witness: the theorem applied at the concrete spec and the
color at its upper tolerances. -/
theorem c5_isMatch_inclusive_intervals_witness :
    (0 ≤ sampleSpec.r.tolerance) ∧ (0 ≤ sampleSpec.g.tolerance) ∧
    (0 ≤ sampleSpec.b.tolerance) ∧
    ((isMatch sampleSpec sampleColor = true ↔
      (sampleSpec.r.value - sampleSpec.r.tolerance ≤ sampleColor.r ∧
       sampleColor.r ≤ sampleSpec.r.value + sampleSpec.r.tolerance ∧
       sampleSpec.g.value - sampleSpec.g.tolerance ≤ sampleColor.g ∧
       sampleColor.g ≤ sampleSpec.g.value + sampleSpec.g.tolerance ∧
       sampleSpec.b.value - sampleSpec.b.tolerance ≤ sampleColor.b ∧
       sampleColor.b ≤ sampleSpec.b.value + sampleSpec.b.tolerance))
    ∧ isMatch sampleSpec ⟨sampleSpec.r.value + sampleSpec.r.tolerance,
        sampleSpec.g.value + sampleSpec.g.tolerance,
        sampleSpec.b.value + sampleSpec.b.tolerance⟩ = true
    ∧ isMatch sampleSpec ⟨sampleSpec.r.value - sampleSpec.r.tolerance,
        sampleSpec.g.value - sampleSpec.g.tolerance,
        sampleSpec.b.value - sampleSpec.b.tolerance⟩ = true
    ∧ isMatch sampleSpec ⟨sampleSpec.r.value + (sampleSpec.r.tolerance + 1),
        sampleSpec.g.value, sampleSpec.b.value⟩ = false
    ∧ isMatch sampleSpec ⟨sampleSpec.r.value,
        sampleSpec.g.value - (sampleSpec.g.tolerance + 1),
        sampleSpec.b.value⟩ = false
    ∧ isMatch sampleSpec ⟨sampleSpec.r.value, sampleSpec.g.value,
        sampleSpec.b.value + (sampleSpec.b.tolerance + 1)⟩ = false) :=
  ⟨by norm_num [sampleSpec], by norm_num [sampleSpec], by norm_num [sampleSpec],
   c5_isMatch_inclusive_intervals sampleSpec sampleColor
     (by norm_num [sampleSpec]) (by norm_num [sampleSpec])
     (by norm_num [sampleSpec])⟩

/-- Claim C4 counterexample: on a scan state whose red channel observed
min 1 and max 6 (midpoint 3.5), the code rounds the midpoint to value 4 but
computes the tolerance from the unrounded midpoint, giving 3; the claim's
formula round(max - value) gives round(6 - 4) = 2, and its asserted
equality with round(value - min) = round(4 - 1) = 3 also fails. -/
theorem c4_counterexample :
    oddSpreadScan.r.min ≤ oddSpreadScan.r.max
    ∧ (getColorSpec oddSpreadScan).r.value = 4
    ∧ (getColorSpec oddSpreadScan).r.tolerance = 3
    ∧ jround (oddSpreadScan.r.max - (getColorSpec oddSpreadScan).r.value) = 2
    ∧ jround ((getColorSpec oddSpreadScan).r.value - oddSpreadScan.r.min) = 3 := by
  norm_num [oddSpreadScan, getColorSpec, jround]

/-- Claim C4 amended: for every scan state whose observed per-channel
extrema satisfy min less-or-equal max, `getColorSpec` returns for each
channel value = round(m) and tolerance = round(max - m), where m =
(max + min) / 2 is the unrounded midpoint; that tolerance equals
round(m - min), and a scan that observed exactly one value yields
tolerance 0 on every channel. -/
theorem c4_amended_spec_from_extrema (s : ScanState)
    (hr : s.r.min ≤ s.r.max) (hg : s.g.min ≤ s.g.max)
    (hb : s.b.min ≤ s.b.max) :
    (getColorSpec s =
      ⟨⟨(jround ((s.r.max + s.r.min) / 2) : ℚ),
        (jround (s.r.max - (s.r.max + s.r.min) / 2) : ℚ)⟩,
       ⟨(jround ((s.g.max + s.g.min) / 2) : ℚ),
        (jround (s.g.max - (s.g.max + s.g.min) / 2) : ℚ)⟩,
       ⟨(jround ((s.b.max + s.b.min) / 2) : ℚ),
        (jround (s.b.max - (s.b.max + s.b.min) / 2) : ℚ)⟩⟩)
    ∧ jround (s.r.max - (s.r.max + s.r.min) / 2)
        = jround ((s.r.max + s.r.min) / 2 - s.r.min)
    ∧ jround (s.g.max - (s.g.max + s.g.min) / 2)
        = jround ((s.g.max + s.g.min) / 2 - s.g.min)
    ∧ jround (s.b.max - (s.b.max + s.b.min) / 2)
        = jround ((s.b.max + s.b.min) / 2 - s.b.min)
    ∧ (s.r.min = s.r.max → (getColorSpec s).r.tolerance = 0)
    ∧ (s.g.min = s.g.max → (getColorSpec s).g.tolerance = 0)
    ∧ (s.b.min = s.b.max → (getColorSpec s).b.tolerance = 0) := by
  refine ⟨rfl, ?_, ?_, ?_, ?_, ?_, ?_⟩
  · rw [show s.r.max - (s.r.max + s.r.min) / 2
        = (s.r.max + s.r.min) / 2 - s.r.min from by ring]
  · rw [show s.g.max - (s.g.max + s.g.min) / 2
        = (s.g.max + s.g.min) / 2 - s.g.min from by ring]
  · rw [show s.b.max - (s.b.max + s.b.min) / 2
        = (s.b.max + s.b.min) / 2 - s.b.min from by ring]
  · intro h
    have e : s.r.max - (s.r.max + s.r.min) / 2 = 0 := by rw [h]; ring
    simp only [getColorSpec]
    rw [e]
    norm_num [jround]
  · intro h
    have e : s.g.max - (s.g.max + s.g.min) / 2 = 0 := by rw [h]; ring
    simp only [getColorSpec]
    rw [e]
    norm_num [jround]
  · intro h
    have e : s.b.max - (s.b.max + s.b.min) / 2 = 0 := by rw [h]; ring
    simp only [getColorSpec]
    rw [e]
    norm_num [jround]

/-- Claim C4 witness for the amended theorem: applied at the concrete scan
state with red extrema 1 and 6 and degenerate green/blue extrema 0. -/
theorem c4_amended_spec_from_extrema_witness :
    (oddSpreadScan.r.min ≤ oddSpreadScan.r.max) ∧
    (oddSpreadScan.g.min ≤ oddSpreadScan.g.max) ∧
    (oddSpreadScan.b.min ≤ oddSpreadScan.b.max) ∧
    ((getColorSpec oddSpreadScan =
      ⟨⟨(jround ((oddSpreadScan.r.max + oddSpreadScan.r.min) / 2) : ℚ),
        (jround (oddSpreadScan.r.max -
          (oddSpreadScan.r.max + oddSpreadScan.r.min) / 2) : ℚ)⟩,
       ⟨(jround ((oddSpreadScan.g.max + oddSpreadScan.g.min) / 2) : ℚ),
        (jround (oddSpreadScan.g.max -
          (oddSpreadScan.g.max + oddSpreadScan.g.min) / 2) : ℚ)⟩,
       ⟨(jround ((oddSpreadScan.b.max + oddSpreadScan.b.min) / 2) : ℚ),
        (jround (oddSpreadScan.b.max -
          (oddSpreadScan.b.max + oddSpreadScan.b.min) / 2) : ℚ)⟩⟩)
    ∧ jround (oddSpreadScan.r.max -
        (oddSpreadScan.r.max + oddSpreadScan.r.min) / 2)
        = jround ((oddSpreadScan.r.max + oddSpreadScan.r.min) / 2 -
            oddSpreadScan.r.min)
    ∧ jround (oddSpreadScan.g.max -
        (oddSpreadScan.g.max + oddSpreadScan.g.min) / 2)
        = jround ((oddSpreadScan.g.max + oddSpreadScan.g.min) / 2 -
            oddSpreadScan.g.min)
    ∧ jround (oddSpreadScan.b.max -
        (oddSpreadScan.b.max + oddSpreadScan.b.min) / 2)
        = jround ((oddSpreadScan.b.max + oddSpreadScan.b.min) / 2 -
            oddSpreadScan.b.min)
    ∧ (oddSpreadScan.r.min = oddSpreadScan.r.max →
        (getColorSpec oddSpreadScan).r.tolerance = 0)
    ∧ (oddSpreadScan.g.min = oddSpreadScan.g.max →
        (getColorSpec oddSpreadScan).g.tolerance = 0)
    ∧ (oddSpreadScan.b.min = oddSpreadScan.b.max →
        (getColorSpec oddSpreadScan).b.tolerance = 0)) :=
  ⟨by norm_num [oddSpreadScan], by norm_num [oddSpreadScan],
   by norm_num [oddSpreadScan],
   c4_amended_spec_from_extrema oddSpreadScan (by norm_num [oddSpreadScan])
     (by norm_num [oddSpreadScan]) (by norm_num [oddSpreadScan])⟩

/-- Claim C3: a scan whose ticks observe exactly the colors (0,0,0),
(1,40,101), (2,45,101), (6,50,111) and is then stopped yields the spec
r = (value 4, tolerance 3), g = (value 45, tolerance 5),
b = (value 106, tolerance 5), and a count of 3 (the all-zero sample is
excluded). -/
theorem c3_scan_scenario :
    getColorSpec (stop (runScan
      [⟨0, 0, 0⟩, ⟨1, 40, 101⟩, ⟨2, 45, 101⟩, ⟨6, 50, 111⟩]))
      = ⟨⟨4, 3⟩, ⟨45, 5⟩, ⟨106, 5⟩⟩
    ∧ getCount (stop (runScan
      [⟨0, 0, 0⟩, ⟨1, 40, 101⟩, ⟨2, 45, 101⟩, ⟨6, 50, 111⟩])) = 3 := by
  constructor
  · norm_num [runScan, scanForColor, initScanState, stop, getColorSpec, jround]
  · norm_num [runScan, scanForColor, initScanState, stop, getCount]

/-- Claim C7: a scan tick that observes exactly the all-zero color leaves
the entire scan state unchanged (no min/max widened, count not
incremented); a tick observing any other color widens each channel's
min/max with that color and increments the count. -/
theorem c7_scan_tick_frame (s : ScanState) (c : Color)
    (hen : s.enabled = true) :
    (c = ⟨0, 0, 0⟩ → scanForColor c s = s)
    ∧ (c ≠ ⟨0, 0, 0⟩ → scanForColor c s =
        ⟨s.enabled, s.count + 1,
          ⟨min s.r.min c.r, max s.r.max c.r⟩,
          ⟨min s.g.min c.g, max s.g.max c.g⟩,
          ⟨min s.b.min c.b, max s.b.max c.b⟩⟩) := by
  constructor
  · rintro rfl
    simp [scanForColor, hen]
  · intro hne
    have hcond : ¬(c.r = 0 ∧ c.g = 0 ∧ c.b = 0) := by
      intro hand
      exact hne (by ext <;> simp [hand.1, hand.2.1, hand.2.2])
    simp [scanForColor, hen, hcond]

/-- Claim C7 witness: the theorem applied at the freshly started scan state
and the color (1, 2, 3). -/
theorem c7_scan_tick_frame_witness :
    initScanState.enabled = true
    ∧ (((⟨1, 2, 3⟩ : Color) = ⟨0, 0, 0⟩ →
        scanForColor ⟨1, 2, 3⟩ initScanState = initScanState)
    ∧ ((⟨1, 2, 3⟩ : Color) ≠ ⟨0, 0, 0⟩ →
        scanForColor ⟨1, 2, 3⟩ initScanState =
          ⟨initScanState.enabled, initScanState.count + 1,
            ⟨min initScanState.r.min (1 : ℚ), max initScanState.r.max (1 : ℚ)⟩,
            ⟨min initScanState.g.min (2 : ℚ), max initScanState.g.max (2 : ℚ)⟩,
            ⟨min initScanState.b.min (3 : ℚ), max initScanState.b.max (3 : ℚ)⟩⟩)) :=
  ⟨rfl, c7_scan_tick_frame initScanState ⟨1, 2, 3⟩ rfl⟩

/-- Claim C10: if a scan observes only all-zero colors (so the extrema stay
at min 255, max 0 and the count stays 0), `getColorSpec` does not fail: it
returns value 128 and tolerance -127 on every channel, and the resulting
spec matches no color at all. -/
theorem c10_all_off_scan (ticks : List Color)
    (h : ∀ c ∈ ticks, c = ⟨0, 0, 0⟩) :
    runScan ticks = initScanState
    ∧ getColorSpec (runScan ticks)
        = ⟨⟨128, -127⟩, ⟨128, -127⟩, ⟨128, -127⟩⟩
    ∧ getCount (runScan ticks) = 0
    ∧ ∀ c : Color, isMatch (getColorSpec (runScan ticks)) c = false := by
  have key : ∀ ts : List Color, (∀ c ∈ ts, c = ⟨0, 0, 0⟩) →
      ts.foldl (fun s c => scanForColor c s) initScanState = initScanState := by
    intro ts
    induction ts with
    | nil => intro _; rfl
    | cons c cs ih =>
        intro hall
        rw [List.foldl_cons, hall c (by simp),
          show scanForColor ⟨0, 0, 0⟩ initScanState = initScanState from by
            norm_num [scanForColor, initScanState]]
        exact ih (fun x hx => hall x (by simp [hx]))
  have hrun : runScan ticks = initScanState := key ticks h
  have hspec : getColorSpec (runScan ticks)
      = ⟨⟨128, -127⟩, ⟨128, -127⟩, ⟨128, -127⟩⟩ := by
    rw [hrun]
    norm_num [initScanState, getColorSpec, jround]
  refine ⟨hrun, hspec, by rw [hrun]; rfl, ?_⟩
  intro c
  rw [hspec]
  simp only [isMatch, decide_eq_false_iff_not]
  rintro ⟨h1, h2, -⟩
  norm_num at h1 h2
  linarith

/-- Claim C10 witness: the theorem applied at the one-tick all-zero
observation list. -/
theorem c10_all_off_scan_witness :
    (∀ c ∈ ([⟨0, 0, 0⟩] : List Color), c = ⟨0, 0, 0⟩)
    ∧ (runScan [⟨0, 0, 0⟩] = initScanState
    ∧ getColorSpec (runScan [⟨0, 0, 0⟩])
        = ⟨⟨128, -127⟩, ⟨128, -127⟩, ⟨128, -127⟩⟩
    ∧ getCount (runScan [⟨0, 0, 0⟩]) = 0
    ∧ ∀ c : Color, isMatch (getColorSpec (runScan [⟨0, 0, 0⟩])) c = false) :=
  ⟨by simp, c10_all_off_scan [⟨0, 0, 0⟩] (by simp)⟩

/-- Registering into the map appends the record to the keyed entry's list,
creating the entry if absent. -/
theorem regGet_mapSet (reg : List RegEntry) (i : Nat) (spec : ColorSpec)
    (rec : HandlerRec) :
    regGet (mapSet reg i spec rec) i = some ((regGet reg i).getD [] ++ [rec]) := by
  induction reg with
  | nil => simp [mapSet, regGet]
  | cons e rest ih =>
      by_cases he : e.id = i
      · simp [mapSet, regGet, he]
      · simp [mapSet, regGet, he, ih]

/-- Deleting a key from the map makes lookup of that key fail. -/
theorem regGet_delete (reg : List RegEntry) (i : Nat) :
    regGet (reg.filter (fun e => !(e.id == i))) i = none := by
  induction reg with
  | nil => simp [regGet]
  | cons e rest ih =>
      by_cases he : e.id = i
      · simpa [List.filter_cons, he] using ih
      · simpa [List.filter_cons, he, regGet] using ih

/-- Claim C8: calling `whenMatches` with a callable handler appends the
record (callback, isRunning false, never yet invoked) to that spec's
ordered handler list, creating the list if absent; calling it with any
non-callable argument removes all handlers registered for that spec; both
paths are total functions, so no error is raised. -/
theorem c8_whenMatches_register_or_clear (reg : List RegEntry) (i : Nat)
    (spec : ColorSpec) (cd : Bool) :
    regGet (whenMatches reg i spec (HandlerArg.callable cd)) i
      = some ((regGet reg i).getD [] ++ [⟨cd, false, 0⟩])
    ∧ regGet (whenMatches reg i spec HandlerArg.notCallable) i = none :=
  ⟨regGet_mapSet reg i spec ⟨cd, false, 0⟩, regGet_delete reg i⟩

/-- Dispatching a publication to a registry holding one spec with one
already-running, never-completing handler changes nothing. -/
theorem runPublications_running_absorb (S : ColorSpec) (cs : List Color) :
    runPublications [⟨0, S, [⟨false, true, 1⟩]⟩] cs
      = [⟨0, S, [⟨false, true, 1⟩]⟩] := by
  induction cs with
  | nil => rfl
  | cons c cs ih =>
      have hstep : invokeHandlersMatching [⟨0, S, [⟨false, true, 1⟩]⟩] c
          = [⟨0, S, [⟨false, true, 1⟩]⟩] := by
        simp only [invokeHandlersMatching, List.map_cons, List.map_nil]
        split
        · simp [dispatchHandler]
        · rfl
      calc runPublications [⟨0, S, [⟨false, true, 1⟩]⟩] (c :: cs)
          = runPublications (invokeHandlersMatching
              [⟨0, S, [⟨false, true, 1⟩]⟩] c) cs := rfl
        _ = [⟨0, S, [⟨false, true, 1⟩]⟩] := by rw [hstep]; exact ih

/-- A fresh handler that never calls its completion token fires exactly
once over any publication sequence containing a match. -/
theorem runPublications_neverDone_once (S : ColorSpec) :
    ∀ cs : List Color, (∃ c ∈ cs, isMatch S c = true) →
      runPublications [⟨0, S, [⟨false, false, 0⟩]⟩] cs
        = [⟨0, S, [⟨false, true, 1⟩]⟩] := by
  intro cs
  induction cs with
  | nil => rintro ⟨c, hc, -⟩; simp at hc
  | cons c cs ih =>
      intro hex
      by_cases hm : isMatch S c = true
      · have hstep : invokeHandlersMatching [⟨0, S, [⟨false, false, 0⟩]⟩] c
            = [⟨0, S, [⟨false, true, 1⟩]⟩] := by
          simp [invokeHandlersMatching, hm, dispatchHandler]
        calc runPublications [⟨0, S, [⟨false, false, 0⟩]⟩] (c :: cs)
            = runPublications (invokeHandlersMatching
                [⟨0, S, [⟨false, false, 0⟩]⟩] c) cs := rfl
          _ = [⟨0, S, [⟨false, true, 1⟩]⟩] := by
              rw [hstep]; exact runPublications_running_absorb S cs
      · have hm' : isMatch S c = false := by
          simpa using hm
        have hstep : invokeHandlersMatching [⟨0, S, [⟨false, false, 0⟩]⟩] c
            = [⟨0, S, [⟨false, false, 0⟩]⟩] := by
          simp [invokeHandlersMatching, hm']
        have hex' : ∃ x ∈ cs, isMatch S x = true := by
          obtain ⟨x, hx, hmx⟩ := hex
          rcases List.mem_cons.mp hx with rfl | hx'
          · exact absurd hmx hm
          · exact ⟨x, hx', hmx⟩
        calc runPublications [⟨0, S, [⟨false, false, 0⟩]⟩] (c :: cs)
            = runPublications (invokeHandlersMatching
                [⟨0, S, [⟨false, false, 0⟩]⟩] c) cs := rfl
          _ = [⟨0, S, [⟨false, true, 1⟩]⟩] := by rw [hstep]; exact ih hex'

/-- Claim C1: a handler registered through `whenMatches` that never invokes
its completion token fires exactly once over any sequence of stable-color
publications that contains a match of its spec (in particular over a
match, un-match, re-match sequence): after the run its invocation count is
1 and its `isRunning` flag is still set; and while `isRunning` is set,
dispatch to that handler is a no-op. -/
theorem c1_at_most_one_in_flight (S : ColorSpec) (cs : List Color)
    (hmatch : ∃ c ∈ cs, isMatch S c = true) :
    runPublications (whenMatches [] 0 S (HandlerArg.callable false)) cs
      = [⟨0, S, [⟨false, true, 1⟩]⟩]
    ∧ ∀ h : HandlerRec, h.isRunning = true → dispatchHandler h = h := by
  constructor
  · exact runPublications_neverDone_once S cs hmatch
  · intro h hh
    simp [dispatchHandler, hh]

/-- Claim C1 witness: the theorem applied at the concrete spec and a
match, un-match, re-match publication sequence. -/
theorem c1_at_most_one_in_flight_witness :
    (∃ c ∈ ([sampleColor, ⟨0, 0, 0⟩, ⟨245, 47, 87⟩] : List Color),
      isMatch sampleSpec c = true)
    ∧ (runPublications
        (whenMatches [] 0 sampleSpec (HandlerArg.callable false))
        [sampleColor, ⟨0, 0, 0⟩, ⟨245, 47, 87⟩]
        = [⟨0, sampleSpec, [⟨false, true, 1⟩]⟩]
    ∧ ∀ h : HandlerRec, h.isRunning = true → dispatchHandler h = h) :=
  ⟨⟨sampleColor, by simp, by norm_num [isMatch, sampleSpec, sampleColor]⟩,
   c1_at_most_one_in_flight sampleSpec [sampleColor, ⟨0, 0, 0⟩, ⟨245, 47, 87⟩]
     ⟨sampleColor, by simp, by norm_num [isMatch, sampleSpec, sampleColor]⟩⟩

/-- Claim C2: a handler registered through `whenMatches` that invokes its
completion token inside its body fires exactly twice over a match,
un-match, re-match publication sequence (invocation count 2, `isRunning`
clear); and handlers are dispatched only when the newly computed stable
color differs from the previous stable color: when the rounded running
average equals the latest stable color, `collectSample` leaves the
registry untouched. -/
theorem c2_rearm_and_change_trigger (S : ColorSpec) (a b c : Color)
    (h1 : isMatch S a = true) (h2 : isMatch S b = false)
    (h3 : isMatch S c = true) :
    runPublications (whenMatches [] 0 S (HandlerArg.callable true)) [a, b, c]
      = [⟨0, S, [⟨true, false, 2⟩]⟩]
    ∧ ∀ (s : CtrlState) (x : Color),
        roundColor (average (x :: s.rawColors)) = s.latestStableColor →
        (collectSample x s).registry = s.registry := by
  constructor
  · have s1 : invokeHandlersMatching [⟨0, S, [⟨true, false, 0⟩]⟩] a
        = [⟨0, S, [⟨true, false, 1⟩]⟩] := by
      simp [invokeHandlersMatching, h1, dispatchHandler]
    have s2 : invokeHandlersMatching [⟨0, S, [⟨true, false, 1⟩]⟩] b
        = [⟨0, S, [⟨true, false, 1⟩]⟩] := by
      simp [invokeHandlersMatching, h2]
    have s3 : invokeHandlersMatching [⟨0, S, [⟨true, false, 1⟩]⟩] c
        = [⟨0, S, [⟨true, false, 2⟩]⟩] := by
      simp [invokeHandlersMatching, h3, dispatchHandler]
    calc runPublications (whenMatches [] 0 S (HandlerArg.callable true))
          [a, b, c]
        = invokeHandlersMatching (invokeHandlersMatching
            (invokeHandlersMatching [⟨0, S, [⟨true, false, 0⟩]⟩] a) b) c := rfl
      _ = [⟨0, S, [⟨true, false, 2⟩]⟩] := by rw [s1, s2, s3]
  · intro s x hx
    simp only [collectSample]
    split_ifs with hlen hstable heq
    · rfl
    · exact absurd (by rw [hx]; simp [isEqual]) heq
    · rfl
    · rfl

/-- Claim C2 witness: the theorem applied at the concrete spec and a
match, un-match, re-match publication sequence. -/
theorem c2_rearm_and_change_trigger_witness :
    (isMatch sampleSpec sampleColor = true)
    ∧ (isMatch sampleSpec ⟨0, 0, 0⟩ = false)
    ∧ (isMatch sampleSpec ⟨245, 47, 87⟩ = true)
    ∧ (runPublications
        (whenMatches [] 0 sampleSpec (HandlerArg.callable true))
        [sampleColor, ⟨0, 0, 0⟩, ⟨245, 47, 87⟩]
        = [⟨0, sampleSpec, [⟨true, false, 2⟩]⟩]
    ∧ ∀ (s : CtrlState) (x : Color),
        roundColor (average (x :: s.rawColors)) = s.latestStableColor →
        (collectSample x s).registry = s.registry) :=
  ⟨by norm_num [isMatch, sampleSpec, sampleColor],
   by norm_num [isMatch, sampleSpec],
   by norm_num [isMatch, sampleSpec],
   c2_rearm_and_change_trigger sampleSpec sampleColor ⟨0, 0, 0⟩ ⟨245, 47, 87⟩
     (by norm_num [isMatch, sampleSpec, sampleColor])
     (by norm_num [isMatch, sampleSpec])
     (by norm_num [isMatch, sampleSpec])⟩

end ColorSensor
